import Mathlib

/-
Verification development for the North Star House check-in dashboard
(server/routes.ts, shared/schema.ts, and the MemStorage class of the
storage module quoted in replit.md).

The server code is TypeScript over JavaScript semantics.  The embedding
below models:
  * records of the three entity kinds (Volunteer, Guest, Staff) with
    nullable columns as `Option` fields (`none` = SQL/JS null or absent);
  * the `x || null` coercions of MemStorage, which send every JS-falsy
    value (undefined, null, "", false) to null;
  * the JS `Map` of MemStorage as an association list in insertion order
    (`mapSet` replaces in place or appends, `mapDelete` removes the single
    entry with the key, exactly like `Map.set` / `Map.delete`);
  * the GET /api/stats hours computation, where `new Date("2024-01-01 " + t)`
    parses the time-of-day string `t`; an unparsable string gives an
    invalid date, whose `getTime()` is NaN.  NaN propagates through
    subtraction, `Math.max` and addition, so the accumulator is modelled
    as `Option Nat` (seconds worked; `none` = NaN).  All parsed times are
    whole seconds, so integer seconds are exact; `Math.round` on the final
    hours figure becomes round-half-up on `seconds / 3600`.
-/

namespace NorthStar

/-- Truthiness of a nullable JS string: a string is truthy iff it is
present and non-empty.  Models the `s.timeIn && s.timeOut` guard. -/
def truthyStr : Option String → Bool
  | none => false
  | some s => s != ""

/-- The MemStorage coercion `x || null` on a nullable string field:
undefined, null and "" all become null. -/
def orNullStr : Option String → Option String
  | none => none
  | some s => if s = "" then none else some s

/-- The MemStorage coercion `x || null` on a nullable boolean field:
undefined, null and false all become null; true stays true. -/
def orNullBool : Option Bool → Option Bool
  | none => none
  | some b => if b then some true else none

/-- Splitting a character list at every occurrence of a separator, as the
JS string parsing below needs; retains empty segments. -/
def splitOnChar (c : Char) : List Char → List (List Char)
  | [] => [[]]
  | x :: xs =>
    let r := splitOnChar c xs
    if x = c then [] :: r
    else
      match r with
      | [] => [[x]]
      | y :: ys => (x :: y) :: ys

/-- Value of a decimal digit list. -/
def digitsVal (l : List Char) : Nat :=
  l.foldl (fun n c => n * 10 + (c.toNat - Char.toNat '0')) 0

/-- A non-empty all-digit character list parses to its decimal value. -/
def parseDigits (l : List Char) : Option Nat :=
  if l.isEmpty then none
  else if l.all Char.isDigit then some (digitsVal l) else none

/-- Parses "H:MM" or "H:MM:SS" into (hours, minutes, seconds), rejecting
minute or second components above 59. -/
def parseHMS (l : List Char) : Option (Nat × Nat × Nat) :=
  match splitOnChar ':' l with
  | [h, m] => do
    let hv ← parseDigits h
    let mv ← parseDigits m
    if mv ≤ 59 then some (hv, mv, 0) else none
  | [h, m, s] => do
    let hv ← parseDigits h
    let mv ← parseDigits m
    let sv ← parseDigits s
    if mv ≤ 59 ∧ sv ≤ 59 then some (hv, mv, sv) else none
  | _ => none

/-- Model of the JavaScript engine's parsing of the time-of-day part of
`new Date("2024-01-01 " + t)` in routes.ts: accepts "H:MM[:SS]"
optionally followed by " AM"/" PM" (the format the client's locale time
formatting produces, e.g. "3:45:12 PM"), and yields seconds since
midnight; anything else is an invalid date, i.e. `none` (NaN).  Since
both operands share the fixed reference date 2024-01-01, their
difference is exactly the difference of these time-of-day values. -/
def parseTimeOfDay (s : String) : Option Nat :=
  match splitOnChar ' ' s.toList with
  | [hms] => do
    let (h, m, sec) ← parseHMS hms
    if h ≤ 23 then some (h * 3600 + m * 60 + sec) else none
  | [hms, mer] => do
    let (h12, m, sec) ← parseHMS hms
    if 1 ≤ h12 ∧ h12 ≤ 12 then
      if mer = String.toList "AM" then
        some ((if h12 = 12 then 0 else h12) * 3600 + m * 60 + sec)
      else if mer = String.toList "PM" then
        some ((if h12 = 12 then 12 else h12 + 12) * 3600 + m * 60 + sec)
      else none
    else none
  | _ => none

/-- A volunteers-table row (shared/schema.ts, `volunteers`).  Nullable
columns are `Option`. -/
structure Volunteer where
  id : Nat
  name : String
  date : String
  timeIn : String
  timeOut : Option String
  area : String
  activities : String
deriving DecidableEq

/-- Insert shape for volunteers (insertVolunteerSchema: the table row
without id). -/
structure InsertVolunteer where
  name : String
  date : String
  timeIn : String
  timeOut : Option String
  area : String
  activities : String
deriving DecidableEq

/-- A guests-table row (shared/schema.ts, `guests`). -/
structure Guest where
  id : Nat
  name : String
  email : String
  phone : Option String
  reason : String
  joinNewsletter : Option Bool
  brideName : Option String
  groomName : Option String
  tourGuide : Option String
  date : String
deriving DecidableEq

/-- Insert shape for guests (insertGuestSchema: the table row without
id).  Optional/defaulted columns stay optional. -/
structure InsertGuest where
  name : String
  email : String
  phone : Option String
  reason : String
  joinNewsletter : Option Bool
  brideName : Option String
  groomName : Option String
  tourGuide : Option String
  date : String
deriving DecidableEq

/-- A staff-table row (shared/schema.ts, `staff`). -/
structure Staff where
  id : Nat
  name : String
  date : String
  timeIn : Option String
  timeOut : Option String
  notes : Option String
deriving DecidableEq

/-- Insert shape for staff (insertStaffSchema: the table row without
id). -/
structure InsertStaff where
  name : String
  date : String
  timeIn : Option String
  timeOut : Option String
  notes : Option String
deriving DecidableEq

/-- JS `Map.set`: replace the entry with the key in place if present,
otherwise append (JS Maps iterate in insertion order). -/
def mapSet {α : Type} (k : Nat) (v : α) : List (Nat × α) → List (Nat × α)
  | [] => [(k, v)]
  | e :: rest => if e.1 = k then (k, v) :: rest else e :: mapSet k v rest

/-- JS `Map.delete`: remove the (single) entry with the key. -/
def mapDelete {α : Type} (k : Nat) : List (Nat × α) → List (Nat × α)
  | [] => []
  | e :: rest => if e.1 = k then rest else e :: mapDelete k rest

/-- JS `Map.has` (what `Map.delete` returns): whether an entry with the
key is present. -/
def mapHasKey {α : Type} (k : Nat) (m : List (Nat × α)) : Bool :=
  m.any (fun e => e.1 == k)

/-- The MemStorage state: three entity stores (JS Maps keyed by id,
modelled in insertion order) and the per-kind id counters.  The users
map of the source is omitted: no claim and no dashboard route touches
it. -/
structure MemStorage where
  volunteers : List (Nat × Volunteer)
  guests : List (Nat × Guest)
  staff : List (Nat × Staff)
  currentVolunteerId : Nat
  currentGuestId : Nat
  currentStaffId : Nat
deriving DecidableEq

/-- The MemStorage constructor: empty maps, all counters at 1. -/
def emptyStorage : MemStorage :=
  { volunteers := [], guests := [], staff := []
    currentVolunteerId := 1, currentGuestId := 1, currentStaffId := 1 }

/-- MemStorage.createVolunteer: take the next id, coerce falsy timeOut
to null, store, return the record. -/
def createVolunteer (st : MemStorage) (i : InsertVolunteer) : Volunteer × MemStorage :=
  let id := st.currentVolunteerId
  let volunteer : Volunteer :=
    { id := id, name := i.name, date := i.date, timeIn := i.timeIn
      timeOut := orNullStr i.timeOut, area := i.area, activities := i.activities }
  (volunteer,
    { st with volunteers := mapSet id volunteer st.volunteers
              currentVolunteerId := id + 1 })

/-- MemStorage.getVolunteers: the map values in insertion order. -/
def getVolunteers (st : MemStorage) : List Volunteer :=
  st.volunteers.map Prod.snd

/-- MemStorage.getVolunteersByCategory: values filtered by exact string
equality on area. -/
def getVolunteersByCategory (st : MemStorage) (category : String) : List Volunteer :=
  (getVolunteers st).filter (fun volunteer => volunteer.area == category)

/-- MemStorage.createGuest: take the next id, coerce each falsy optional
field to null, store, return the record. -/
def createGuest (st : MemStorage) (i : InsertGuest) : Guest × MemStorage :=
  let id := st.currentGuestId
  let guest : Guest :=
    { id := id, name := i.name, email := i.email
      phone := orNullStr i.phone, reason := i.reason
      joinNewsletter := orNullBool i.joinNewsletter
      brideName := orNullStr i.brideName
      groomName := orNullStr i.groomName
      tourGuide := orNullStr i.tourGuide, date := i.date }
  (guest,
    { st with guests := mapSet id guest st.guests
              currentGuestId := id + 1 })

/-- MemStorage.getGuests. -/
def getGuests (st : MemStorage) : List Guest :=
  st.guests.map Prod.snd

/-- MemStorage.createStaff: take the next id, coerce each falsy optional
field to null, store, return the record. -/
def createStaff (st : MemStorage) (i : InsertStaff) : Staff × MemStorage :=
  let id := st.currentStaffId
  let staffRec : Staff :=
    { id := id, name := i.name, date := i.date
      timeIn := orNullStr i.timeIn, timeOut := orNullStr i.timeOut
      notes := orNullStr i.notes }
  (staffRec,
    { st with staff := mapSet id staffRec st.staff
              currentStaffId := id + 1 })

/-- MemStorage.getStaff. -/
def getStaff (st : MemStorage) : List Staff :=
  st.staff.map Prod.snd

/-- The kind discriminator of the unified people view. -/
inductive PersonType where
  | volunteer
  | guest
  | staff
deriving DecidableEq

/-- An element of the unified people view: one record of one of the
three kinds, carrying its type tag (the `{ ...record, type }` objects of
getAllPeople). -/
inductive Person where
  | volunteer (v : Volunteer)
  | guest (g : Guest)
  | staff (s : Staff)
deriving DecidableEq

/-- The type tag carried by a unified person entry. -/
def Person.tag : Person → PersonType
  | .volunteer _ => .volunteer
  | .guest _ => .guest
  | .staff _ => .staff

/-- MemStorage.getAllPeople: push every volunteer, then every guest,
then every staff row onto one array, each tagged with its kind. -/
def getAllPeople (st : MemStorage) : List Person :=
  let afterVolunteers :=
    (getVolunteers st).foldl (fun acc v => acc ++ [Person.volunteer v]) []
  let afterGuests :=
    (getGuests st).foldl (fun acc g => acc ++ [Person.guest g]) afterVolunteers
  (getStaff st).foldl (fun acc s => acc ++ [Person.staff s]) afterGuests

/-- MemStorage.deletePerson: delete the id from the store selected by
the type tag, returning whether an entry was removed. -/
def deletePerson (st : MemStorage) (type : PersonType) (id : Nat) : Bool × MemStorage :=
  match type with
  | .volunteer =>
    (mapHasKey id st.volunteers, { st with volunteers := mapDelete id st.volunteers })
  | .guest =>
    (mapHasKey id st.guests, { st with guests := mapDelete id st.guests })
  | .staff =>
    (mapHasKey id st.staff, { st with staff := mapDelete id st.staff })

/-- JS `Array.from(new Set(l))`: deduplication keeping the first
occurrence of each element, in first-occurrence order.  `seen` are the
elements already emitted. -/
def dedupFirstAux {α : Type} [DecidableEq α] (seen : List α) : List α → List α
  | [] => []
  | x :: xs =>
    if x ∈ seen then dedupFirstAux seen xs
    else x :: dedupFirstAux (x :: seen) xs

/-- JS `Array.from(new Set(l))`. -/
def dedupFirst {α : Type} [DecidableEq α] (l : List α) : List α :=
  dedupFirstAux [] l

/-- Code-point lexicographic comparison of character lists, the order JS
`Array.prototype.sort()` applies to strings. -/
def charListLe : List Char → List Char → Bool
  | [], _ => true
  | _ :: _, [] => false
  | a :: as, b :: bs => if a < b then true else if b < a then false else charListLe as bs

/-- The string order used by the `.sort()` calls in MemStorage. -/
def strLe (a b : String) : Prop :=
  charListLe a.toList b.toList = true

instance : DecidableRel strLe := fun a b => by
  unfold strLe; infer_instance

/-- MemStorage.getUniqueVolunteerNames: Array.from(new Set(names)) then
.sort(). -/
def getUniqueVolunteerNames (st : MemStorage) : List String :=
  List.insertionSort strLe (dedupFirst ((getVolunteers st).map Volunteer.name))

/-- MemStorage.getUniqueStaffNames: Array.from(new Set(names)) then
.sort(). -/
def getUniqueStaffNames (st : MemStorage) : List String :=
  List.insertionSort strLe (dedupFirst ((getStaff st).map Staff.name))

/-- One step of the `staff.reduce` in GET /api/stats, tracked in whole
seconds: if both time fields are truthy, parse them; a parse failure is
NaN (`none`), which poisons the accumulator, otherwise add
`Math.max(0, timeOut - timeIn)`; if either field is falsy the row is
skipped. -/
def totalHoursStep (total : Option Nat) (s : Staff) : Option Nat :=
  if truthyStr s.timeIn && truthyStr s.timeOut then
    match s.timeIn.bind parseTimeOfDay, s.timeOut.bind parseTimeOfDay with
    | some tIn, some tOut => total.map (fun t => t + ((tOut : Int) - (tIn : Int)).toNat)
    | _, _ => none
  else total

/-- The `staff.reduce((total, s) => ..., 0)` of GET /api/stats, in whole
seconds (`none` = NaN). -/
def totalStaffSeconds (rows : List Staff) : Option Nat :=
  rows.foldl totalHoursStep (some 0)

/-- `Math.round (sec / 3600)` for a nonnegative exact number of seconds:
round half up. -/
def roundSecondsToHours (sec : Nat) : Nat :=
  (2 * sec + 3600) / 7200

/-- The `hours` field of GET /api/stats: `Math.round(totalHours)`;
`none` models NaN (serialized as null by res.json). -/
def computeStatsHours (rows : List Staff) : Option Nat :=
  (totalStaffSeconds rows).map roundSecondsToHours

/-- The GET /api/stats response object. -/
structure Stats where
  volunteers : Nat
  guests : Nat
  hours : Option Nat
deriving DecidableEq

/-- The GET /api/stats handler over a storage state. -/
def computeStats (st : MemStorage) : Stats :=
  { volunteers := (getVolunteers st).length
    guests := (getGuests st).length
    hours := computeStatsHours (getStaff st) }

/-- A JSON request body for POST /api/guest, before validation: each
schema field either present (with a value of the column's type) or
absent.  Bodies with extra or wrongly-typed fields are out of scope;
the claims under study concern presence/absence only. -/
structure GuestPayload where
  name : Option String
  email : Option String
  phone : Option String
  reason : Option String
  joinNewsletter : Option Bool
  brideName : Option String
  groomName : Option String
  tourGuide : Option String
  date : Option String
deriving DecidableEq

/-- `insertGuestSchema.parse` (shared/schema.ts): createInsertSchema on
the guests table, minus id.  Not-null columns without a default (name,
email, reason, date) are required; nullable columns and the defaulted
joinNewsletter column are optional and pass through unchanged.  On
failure the zod error carries the offending field paths; we return that
list of field names. -/
def parseInsertGuest (p : GuestPayload) : Except (List String) InsertGuest :=
  match p.name, p.email, p.reason, p.date with
  | some n, some e, some r, some d =>
    .ok { name := n, email := e, phone := p.phone, reason := r
          joinNewsletter := p.joinNewsletter, brideName := p.brideName
          groomName := p.groomName, tourGuide := p.tourGuide, date := d }
  | _, _, _, _ =>
    .error (((if p.name.isNone then ["name"] else []) ++
             (if p.email.isNone then ["email"] else [])) ++
            ((if p.reason.isNone then ["reason"] else []) ++
             (if p.date.isNone then ["date"] else [])))

/-- The POST /api/guest handler: parse the body with insertGuestSchema;
on a zod error answer 400 with the field errors and create nothing;
otherwise create the guest and answer with the created record. -/
def postGuest (st : MemStorage) (p : GuestPayload) :
    Except (List String) (Guest × MemStorage) :=
  match parseInsertGuest p with
  | .error fields => .error fields
  | .ok g => .ok (createGuest st g)

/-- A storage operation, as the claims about identity assignment range
over creation and deletion sequences. -/
inductive Op where
  | createVolunteer (i : InsertVolunteer)
  | createGuest (i : InsertGuest)
  | createStaff (i : InsertStaff)
  | deletePerson (type : PersonType) (id : Nat)
deriving DecidableEq

/-- State transition of one operation (the record returned by a creation
is dropped; `assignedIds` recovers it). -/
def applyOp (st : MemStorage) : Op → MemStorage
  | .createVolunteer i => (createVolunteer st i).2
  | .createGuest i => (createGuest st i).2
  | .createStaff i => (createStaff st i).2
  | .deletePerson type id => (deletePerson st type id).2

/-- Running a sequence of operations from a state. -/
def runOps (st : MemStorage) : List Op → MemStorage
  | [] => st
  | op :: ops => runOps (applyOp st op) ops

/-- The ids of the records returned by the creations of one kind along
an operation sequence, in creation order. -/
def assignedIds (k : PersonType) (st : MemStorage) : List Op → List Nat
  | [] => []
  | op :: ops =>
    let rest := assignedIds k (applyOp st op) ops
    match k, op with
    | .volunteer, .createVolunteer i => (createVolunteer st i).1.id :: rest
    | .guest, .createGuest i => (createGuest st i).1.id :: rest
    | .staff, .createStaff i => (createStaff st i).1.id :: rest
    | _, _ => rest

/-- The id counter a kind's creations draw from. -/
def counterOf (k : PersonType) (st : MemStorage) : Nat :=
  match k with
  | .volunteer => st.currentVolunteerId
  | .guest => st.currentGuestId
  | .staff => st.currentStaffId

/-- Whether every time field that is present on the row parses as a
time-of-day; rows not satisfying this are the subject of the
unparsable-input claim, handled separately. -/
def rowTimesParse (s : Staff) : Bool :=
  match s.timeIn, s.timeOut with
  | some a, some b => (parseTimeOfDay a).isSome && (parseTimeOfDay b).isSome
  | _, _ => true

/-- Follows the spec's words (section 4.3): the seconds a single Staff
row contributes, namely max(0, timeOut - timeIn) when both fields are
present and parse, and 0 otherwise. -/
def specRowSeconds (s : Staff) : Nat :=
  match s.timeIn, s.timeOut with
  | some tIn, some tOut =>
    match parseTimeOfDay tIn, parseTimeOfDay tOut with
    | some a, some b => ((b : Int) - (a : Int)).toNat
    | _, _ => 0
  | _, _ => 0

/-- Follows the spec's words (section 4.3): the `hours` statistic is the
sum over all Staff rows with both time fields present of
max(0, timeOut - timeIn) expressed in hours, rounded to the nearest
integer. -/
def specStatsHours (rows : List Staff) : Nat :=
  roundSecondsToHours (rows.map specRowSeconds).sum

/-- Fixture: a staff row clocked 9:00:00 AM to 5:00:00 PM. -/
def staffRow9to5 : Staff :=
  { id := 1, name := "Ada", date := "7/22/2025", timeIn := some "9:00:00 AM"
    timeOut := some "5:00:00 PM", notes := none }

/-- Fixture: a staff row clocked 5:00:00 PM to 9:00:00 AM (textually
reversed). -/
def staffRow5to9 : Staff :=
  { id := 1, name := "Ada", date := "7/22/2025", timeIn := some "5:00:00 PM"
    timeOut := some "9:00:00 AM", notes := none }

/-- Fixture: a staff row with no clock-out time. -/
def staffRowNoOut : Staff :=
  { id := 1, name := "Ada", date := "7/22/2025", timeIn := some "9:00:00 AM"
    timeOut := none, notes := none }

/-- Fixture: a staff row whose clock-in time is unparsable. -/
def staffRowBad : Staff :=
  { id := 2, name := "Eve", date := "7/22/2025", timeIn := some "badtime"
    timeOut := some "5:00:00 PM", notes := none }

/-- Fixture: a storage whose staff store holds only the 9-to-5 row. -/
def st9to5 : MemStorage :=
  { emptyStorage with staff := [(1, staffRow9to5)], currentStaffId := 2 }

/-- Fixture: a storage whose staff store holds only the reversed row. -/
def st5to9 : MemStorage :=
  { emptyStorage with staff := [(1, staffRow5to9)], currentStaffId := 2 }

/-- Fixture: a storage whose staff store holds only the row missing its
clock-out. -/
def stNoOut : MemStorage :=
  { emptyStorage with staff := [(1, staffRowNoOut)], currentStaffId := 2 }

/-- Fixture: a storage holding the 9-to-5 row and the unparsable row. -/
def stGoodBad : MemStorage :=
  { emptyStorage with
    staff := [(1, staffRow9to5), (2, staffRowBad)]
    currentStaffId := 3 }

/-- Fixture: a POST /api/guest body with reason "wedding" and no
brideName, all unconditionally-required fields present. -/
def weddingNoBride : GuestPayload :=
  { name := some "Bea and Greg", email := some "bea@example.com", phone := none
    reason := some "wedding", joinNewsletter := none, brideName := none
    groomName := some "Greg", tourGuide := none, date := some "7/22/2025" }

/-- Fixture: a volunteer row with id 5. -/
def volunteerFive : Volunteer :=
  { id := 5, name := "Val", date := "7/22/2025", timeIn := "9:00:00 AM"
    timeOut := none, area := "Gardening", activities := "weeding" }

/-- Fixture: a guest row with id 5. -/
def guestFive : Guest :=
  { id := 5, name := "Gus", email := "gus@example.com", phone := none
    reason := "historic", joinNewsletter := none, brideName := none
    groomName := none, tourGuide := none, date := "7/22/2025" }

/-- Fixture: a staff row with id 5. -/
def staffFive : Staff :=
  { id := 5, name := "Stu", date := "7/22/2025", timeIn := some "9:00:00 AM"
    timeOut := none, notes := none }

/-- Fixture: a storage in which all three kinds have a row with id 5. -/
def stShared : MemStorage :=
  { volunteers := [(5, volunteerFive)], guests := [(5, guestFive)]
    staff := [(5, staffFive)], currentVolunteerId := 6, currentGuestId := 6
    currentStaffId := 6 }

/-- Fixture: a guest creation input with every optional field omitted. -/
def plainGuestInput : InsertGuest :=
  { name := "Ada", email := "ada@example.com", phone := none
    reason := "historic", joinNewsletter := none, brideName := none
    groomName := none, tourGuide := none, date := "7/22/2025" }

/-- Fixture: a volunteer creation input with timeOut omitted. -/
def plainVolunteerInput : InsertVolunteer :=
  { name := "Ada", date := "7/22/2025", timeIn := "9:00:00 AM"
    timeOut := none, area := "Gardening", activities := "weeding" }

/-- Fixture: volunteer rows named Bob, Ann, Bob. -/
def stBobAnnBob : MemStorage :=
  { emptyStorage with
    volunteers :=
      [(1, { id := 1, name := "Bob", date := "d", timeIn := "t", timeOut := none
             area := "a", activities := "x" }),
       (2, { id := 2, name := "Ann", date := "d", timeIn := "t", timeOut := none
             area := "a", activities := "x" }),
       (3, { id := 3, name := "Bob", date := "d", timeIn := "t", timeOut := none
             area := "a", activities := "x" })]
    currentVolunteerId := 4 }

/-! Helper lemmas. -/

theorem charListLe_total (a b : List Char) : charListLe a b = true ∨ charListLe b a = true := by
  induction a generalizing b with
  | nil => left; rfl
  | cons x xs ih =>
    cases b with
    | nil => right; rfl
    | cons y ys =>
      rcases lt_trichotomy x y with h | h | h
      · left; simp [charListLe, h]
      · subst h; rcases ih ys with h2 | h2 <;> [left; right] <;> simp [charListLe, h2]
      · right; simp [charListLe, h]

theorem charListLe_trans {a b c : List Char} (h1 : charListLe a b = true)
    (h2 : charListLe b c = true) : charListLe a c = true := by
  induction a generalizing b c with
  | nil => rfl
  | cons x xs ih =>
    cases b with
    | nil => simp [charListLe] at h1
    | cons y ys =>
      cases c with
      | nil => simp [charListLe] at h2
      | cons z zs =>
        simp only [charListLe] at h1 h2 ⊢
        by_cases hxy : x < y
        · by_cases hyz : y < z
          · simp [lt_trans hxy hyz]
          · by_cases hzy : z < y
            · simp [hyz, hzy] at h2
            · have hyz2 : y = z := le_antisymm (not_lt.1 hzy) (not_lt.1 hyz)
              subst hyz2; simp [hxy]
        · by_cases hyx : y < x
          · simp [hxy, hyx] at h1
          · have hxy2 : x = y := le_antisymm (not_lt.1 hyx) (not_lt.1 hxy)
            subst hxy2
            simp only [lt_irrefl, if_false] at h1
            by_cases hyz : x < z
            · simp [hyz]
            · by_cases hzy : z < x
              · simp [hyz, hzy] at h2
              · have hyz2 : x = z := le_antisymm (not_lt.1 hzy) (not_lt.1 hyz)
                subst hyz2
                simp only [lt_irrefl, if_false] at h2 ⊢
                exact ih h1 h2

instance : IsTotal String strLe := by
  constructor; intro a b; exact charListLe_total _ _

instance : IsTrans String strLe := by
  constructor; intro a b c h1 h2; exact charListLe_trans h1 h2

theorem parseTimeOfDay_empty : parseTimeOfDay "" = none := by decide

theorem truthy_of_parses {a : String} (h : (parseTimeOfDay a).isSome = true) :
    (a != "") = true := by
  rcases eq_or_ne a "" with rfl | hne
  · rw [parseTimeOfDay_empty] at h; simp at h
  · simpa using hne

theorem foldl_step_some (rows : List Staff)
    (h : ∀ s ∈ rows, rowTimesParse s = true) (n : Nat) :
    rows.foldl totalHoursStep (some n) = some (n + (rows.map specRowSeconds).sum) := by
  induction rows generalizing n with
  | nil => simp
  | cons s rows ih =>
    have hs := h s (List.mem_cons_self s rows)
    have hrest : ∀ t ∈ rows, rowTimesParse t = true :=
      fun t ht => h t (List.mem_cons_of_mem _ ht)
    obtain ⟨sid, sname, sdate, tIn, tOut, snotes⟩ := s
    rw [List.foldl_cons, List.map_cons, List.sum_cons]
    rcases tIn with _ | a
    · have hstep : totalHoursStep (some n) ⟨sid, sname, sdate, none, tOut, snotes⟩ = some n := by
        simp [totalHoursStep, truthyStr]
      rw [hstep, ih hrest]
      have : specRowSeconds ⟨sid, sname, sdate, none, tOut, snotes⟩ = 0 := by
        simp [specRowSeconds]
      rw [this, Nat.zero_add]
    · rcases tOut with _ | b
      · have hstep : totalHoursStep (some n) ⟨sid, sname, sdate, some a, none, snotes⟩ = some n := by
          simp [totalHoursStep, truthyStr]
        rw [hstep, ih hrest]
        have : specRowSeconds ⟨sid, sname, sdate, some a, none, snotes⟩ = 0 := by
          simp [specRowSeconds]
        rw [this, Nat.zero_add]
      · simp only [rowTimesParse, Bool.and_eq_true] at hs
        obtain ⟨x, hx⟩ := Option.isSome_iff_exists.mp hs.1
        obtain ⟨y, hy⟩ := Option.isSome_iff_exists.mp hs.2
        have hstep : totalHoursStep (some n) ⟨sid, sname, sdate, some a, some b, snotes⟩ =
            some (n + ((y : Int) - (x : Int)).toNat) := by
          simp only [totalHoursStep, truthyStr, truthy_of_parses hs.1,
            truthy_of_parses hs.2, Bool.and_self, if_true, Option.some_bind, hx, hy]
          rfl
        have hspec : specRowSeconds ⟨sid, sname, sdate, some a, some b, snotes⟩ =
            ((y : Int) - (x : Int)).toNat := by
          simp [specRowSeconds, hx, hy]
        rw [hstep, ih hrest, hspec]
        congr 1
        omega

/-- C1: for every storage state whose staff rows all have parseable time
fields wherever both are present, the hours statistic of GET /api/stats
equals the spec's formula: the sum over rows with both timeIn and
timeOut of max(0, timeOut - timeIn) expressed in hours, parsed as
times-of-day (the row's date field unused), rounded to the nearest
integer; in particular a single 9:00:00 AM / 5:00:00 PM row yields 8, a
single 5:00:00 PM / 9:00:00 AM row yields 0 (clamped, not wrapped), and
a row missing timeOut contributes 0. -/
theorem stats_hours_correct :
    (∀ st : MemStorage, (∀ s ∈ getStaff st, rowTimesParse s = true) →
      (computeStats st).hours = some (specStatsHours (getStaff st))) ∧
    (computeStats st9to5).hours = some 8 ∧
    (computeStats st5to9).hours = some 0 ∧
    (computeStats stNoOut).hours = some 0 := by
  refine ⟨?_, by decide, by decide, by decide⟩
  intro st h
  show (totalStaffSeconds (getStaff st)).map roundSecondsToHours = _
  rw [totalStaffSeconds, foldl_step_some _ h 0]
  simp [specStatsHours]

/-- Witness: stats_hours_correct applied to the 9-to-5 fixture state. -/
theorem stats_hours_correct_witness :
    (computeStats st9to5).hours = some (specStatsHours (getStaff st9to5)) :=
  stats_hours_correct.1 st9to5 (by decide)

theorem totalHoursStep_none (s : Staff) : totalHoursStep none s = none := by
  unfold totalHoursStep
  split
  · split <;> rfl
  · rfl

theorem foldl_step_poisoned (rows : List Staff) :
    rows.foldl totalHoursStep none = none := by
  induction rows with
  | nil => rfl
  | cons s rows ih => rw [List.foldl_cons, totalHoursStep_none]; exact ih

theorem totalHoursStep_bad (t : Option Nat) (s : Staff)
    (htr : (truthyStr s.timeIn && truthyStr s.timeOut) = true)
    (hbad : s.timeIn.bind parseTimeOfDay = none ∨ s.timeOut.bind parseTimeOfDay = none) :
    totalHoursStep t s = none := by
  unfold totalHoursStep
  rw [if_pos htr]
  rcases hIn : s.timeIn.bind parseTimeOfDay with _ | x
  · simp [hIn]
  · rcases hOut : s.timeOut.bind parseTimeOfDay with _ | y
    · simp [hIn, hOut]
    · simp [hIn, hOut] at hbad

theorem foldl_step_mem_bad (rows : List Staff) (s : Staff) (hs : s ∈ rows)
    (htr : (truthyStr s.timeIn && truthyStr s.timeOut) = true)
    (hbad : s.timeIn.bind parseTimeOfDay = none ∨ s.timeOut.bind parseTimeOfDay = none)
    (t : Option Nat) : rows.foldl totalHoursStep t = none := by
  induction rows generalizing t with
  | nil => cases hs
  | cons x xs ih =>
    rcases List.mem_cons.mp hs with rfl | hmem
    · rw [List.foldl_cons, totalHoursStep_bad t _ htr hbad]
      exact foldl_step_poisoned xs
    · rw [List.foldl_cons]
      exact ih hmem _

/-- C2 counterexample: adding a staff row with an unparsable clock-in
time next to the 9-to-5 row does not leave the total at 8 as the claim
states; it turns the whole hours figure into NaN (null). -/
theorem stats_unparsable_counterexample :
    (computeStats stGoodBad).hours = none ∧
    (computeStats st9to5).hours = some 8 ∧
    (computeStats stGoodBad).hours ≠ (computeStats st9to5).hours := by decide

/-- C2 (amended): the stats computation never crashes (it is a total
function), but a staff row with both time fields present and either one
unparsable does not contribute 0: it poisons the whole computation, and
the hours figure becomes NaN (serialized as null), whatever the other
rows are. -/
theorem stats_unparsable_poisons (st : MemStorage) (s : Staff)
    (hs : s ∈ getStaff st)
    (htr : (truthyStr s.timeIn && truthyStr s.timeOut) = true)
    (hbad : s.timeIn.bind parseTimeOfDay = none ∨ s.timeOut.bind parseTimeOfDay = none) :
    (computeStats st).hours = none := by
  show (totalStaffSeconds (getStaff st)).map roundSecondsToHours = none
  rw [totalStaffSeconds, foldl_step_mem_bad (getStaff st) s hs htr hbad (some 0)]
  rfl

/-- Witness: stats_unparsable_poisons applied to the fixture holding the
9-to-5 row and the unparsable row. -/
theorem stats_unparsable_poisons_witness : (computeStats stGoodBad).hours = none :=
  stats_unparsable_poisons stGoodBad staffRowBad (by decide) (by decide)
    (Or.inl (by decide))

/-- C3 counterexample: a POST /api/guest body with reason "wedding" and
brideName omitted is not rejected: insertGuestSchema accepts it, the
handler answers ok, and a guest record is created, with brideName stored
as null. -/
theorem guest_wedding_missing_bride_counterexample :
    (postGuest emptyStorage weddingNoBride).isOk = true ∧
    (postGuest emptyStorage weddingNoBride).toOption.map
      (fun r => r.2.guests.length) = some 1 ∧
    (postGuest emptyStorage weddingNoBride).toOption.map
      (fun r => (r.1.reason, r.1.brideName)) = some ("wedding", none) := by
  exact ⟨rfl, rfl, rfl⟩

/-- C3 (amended): the server-side POST /api/guest path enforces no
conditional brideName requirement.  Every body carrying the four
unconditionally required fields, with reason "wedding" and brideName
omitted, passes insertGuestSchema validation, and a guest record is
created and stored with brideName null; the brideName requirement exists
only in the client registration form. -/
theorem guest_wedding_missing_bride_accepted (st : MemStorage) (p : GuestPayload)
    (hn : p.name.isSome = true) (he : p.email.isSome = true)
    (hr : p.reason = some "wedding") (hd : p.date.isSome = true)
    (hb : p.brideName = none) :
    ∃ g st2, postGuest st p = Except.ok (g, st2) ∧ g.brideName = none ∧
      g.reason = "wedding" ∧ st2.guests = mapSet g.id g st.guests := by
  obtain ⟨n, hn⟩ := Option.isSome_iff_exists.mp hn
  obtain ⟨e, he⟩ := Option.isSome_iff_exists.mp he
  obtain ⟨d, hd⟩ := Option.isSome_iff_exists.mp hd
  simp only [postGuest, parseInsertGuest, hn, he, hr, hd, hb]
  exact ⟨_, _, rfl, rfl, rfl, rfl⟩

/-- Witness: guest_wedding_missing_bride_accepted at the fixture
body. -/
theorem guest_wedding_missing_bride_accepted_witness :
    ∃ g st2, postGuest emptyStorage weddingNoBride = Except.ok (g, st2) ∧
      g.brideName = none ∧ g.reason = "wedding" ∧
      st2.guests = mapSet g.id g emptyStorage.guests :=
  guest_wedding_missing_bride_accepted emptyStorage weddingNoBride
    (by decide) (by decide) (by decide) (by decide) (by decide)

theorem mapHasKey_iff {α : Type} (k : Nat) (m : List (Nat × α)) :
    mapHasKey k m = true ↔ ∃ v, (k, v) ∈ m := by
  unfold mapHasKey
  rw [List.any_eq_true]
  constructor
  · rintro ⟨⟨k1, v⟩, hmem, he⟩
    have hk : k1 = k := by simpa using he
    subst hk
    exact ⟨v, hmem⟩
  · rintro ⟨v, hmem⟩
    exact ⟨(k, v), hmem, by simp⟩

theorem mapDelete_eq_filter {α : Type} (k : Nat) (m : List (Nat × α))
    (h : (m.map Prod.fst).Nodup) :
    mapDelete k m = m.filter (fun e => e.1 != k) := by
  induction m with
  | nil => rfl
  | cons e rest ih =>
    rw [List.map_cons, List.nodup_cons] at h
    by_cases he : e.1 = k
    · have h1 : mapDelete k (e :: rest) = rest := by simp [mapDelete, he]
      have h2 : ((e.1 != k) : Bool) = false := by simp [he]
      rw [h1, List.filter_cons, h2]
      simp only [Bool.false_eq_true, if_false]
      symm
      rw [List.filter_eq_self]
      intro a ha
      simp only [bne_iff_ne, ne_eq]
      intro hak
      exact h.1 (List.mem_map.mpr ⟨a, ha, by rw [hak, ← he]⟩)
    · have h1 : mapDelete k (e :: rest) = e :: mapDelete k rest := by
        simp [mapDelete, he]
      have h2 : ((e.1 != k) : Bool) = true := by simp [he]
      rw [h1, List.filter_cons, h2]
      simp only [if_true]
      rw [ih h.2]

/-- C4: deletePerson is kind-scoped.  For each kind, assuming the maps'
key uniqueness invariant, the returned boolean is true exactly when a
row with the id exists in that kind's store, the store afterwards is the
original minus precisely the entries keyed by that id (so at most the
single such row is removed), and the other two kinds' stores are
untouched; in particular deleting staff id X never changes a volunteer
or guest row with id X. -/
theorem deletePerson_kind_scoped (st : MemStorage) (id : Nat)
    (hv : (st.volunteers.map Prod.fst).Nodup)
    (hg : (st.guests.map Prod.fst).Nodup)
    (hs : (st.staff.map Prod.fst).Nodup) :
    (((deletePerson st .volunteer id).1 = true ↔ ∃ v, (id, v) ∈ st.volunteers) ∧
      (deletePerson st .volunteer id).2.volunteers =
        st.volunteers.filter (fun e => e.1 != id) ∧
      (deletePerson st .volunteer id).2.guests = st.guests ∧
      (deletePerson st .volunteer id).2.staff = st.staff) ∧
    (((deletePerson st .guest id).1 = true ↔ ∃ g, (id, g) ∈ st.guests) ∧
      (deletePerson st .guest id).2.guests =
        st.guests.filter (fun e => e.1 != id) ∧
      (deletePerson st .guest id).2.volunteers = st.volunteers ∧
      (deletePerson st .guest id).2.staff = st.staff) ∧
    (((deletePerson st .staff id).1 = true ↔ ∃ s, (id, s) ∈ st.staff) ∧
      (deletePerson st .staff id).2.staff =
        st.staff.filter (fun e => e.1 != id) ∧
      (deletePerson st .staff id).2.volunteers = st.volunteers ∧
      (deletePerson st .staff id).2.guests = st.guests) :=
  ⟨⟨mapHasKey_iff id st.volunteers, mapDelete_eq_filter id st.volunteers hv, rfl, rfl⟩,
   ⟨mapHasKey_iff id st.guests, mapDelete_eq_filter id st.guests hg, rfl, rfl⟩,
   ⟨mapHasKey_iff id st.staff, mapDelete_eq_filter id st.staff hs, rfl, rfl⟩⟩

/-- Witness: deletePerson_kind_scoped at the fixture where all three
kinds hold a row with id 5: deleting staff id 5 returns true and leaves
the volunteer and guest rows with id 5 intact. -/
theorem deletePerson_kind_scoped_witness :
    (deletePerson stShared PersonType.staff 5).2.volunteers = stShared.volunteers ∧
    (deletePerson stShared PersonType.staff 5).2.guests = stShared.guests ∧
    ((deletePerson stShared PersonType.staff 5).1 = true ↔
      ∃ s, (5, s) ∈ stShared.staff) := by
  have h := deletePerson_kind_scoped stShared 5 (by decide) (by decide) (by decide)
  exact ⟨h.2.2.2.2.1, h.2.2.2.2.2, h.2.2.1⟩

theorem mem_mapSet {α : Type} (k : Nat) (v : α) (m : List (Nat × α)) :
    (k, v) ∈ mapSet k v m := by
  induction m with
  | nil => simp [mapSet]
  | cons e rest ih =>
    by_cases he : e.1 = k
    · simp [mapSet, he]
    · simp only [mapSet, he, if_false, List.mem_cons]
      exact Or.inr ih

/-- C5 counterexample: creating a guest with joinNewsletter omitted
stores null, not false, in the returned (and stored) record. -/
theorem guest_newsletter_default_counterexample :
    (createGuest emptyStorage plainGuestInput).1.joinNewsletter = none ∧
    (createGuest emptyStorage plainGuestInput).1.joinNewsletter ≠ some false := by
  decide

/-- C5 (amended): every optional creation field omitted from the input
is absent (null) in the created record, which is exactly the record put
into the store: Guest.phone, brideName, groomName, tourGuide default to
absent, Guest.joinNewsletter also defaults to absent (null, not false),
and Volunteer.timeOut defaults to absent. -/
theorem create_omitted_fields_absent (st : MemStorage) (g : InsertGuest)
    (v : InsertVolunteer) :
    (g.phone = none → (createGuest st g).1.phone = none) ∧
    (g.joinNewsletter = none → (createGuest st g).1.joinNewsletter = none) ∧
    (g.brideName = none → (createGuest st g).1.brideName = none) ∧
    (g.groomName = none → (createGuest st g).1.groomName = none) ∧
    (g.tourGuide = none → (createGuest st g).1.tourGuide = none) ∧
    ((createGuest st g).1.id, (createGuest st g).1) ∈ (createGuest st g).2.guests ∧
    (v.timeOut = none → (createVolunteer st v).1.timeOut = none) ∧
    ((createVolunteer st v).1.id, (createVolunteer st v).1) ∈
      (createVolunteer st v).2.volunteers := by
  refine ⟨?_, ?_, ?_, ?_, ?_, ?_, ?_, ?_⟩
  · intro h; simp [createGuest, orNullStr, h]
  · intro h; simp [createGuest, orNullBool, h]
  · intro h; simp [createGuest, orNullStr, h]
  · intro h; simp [createGuest, orNullStr, h]
  · intro h; simp [createGuest, orNullStr, h]
  · exact mem_mapSet _ _ _
  · intro h; simp [createVolunteer, orNullStr, h]
  · exact mem_mapSet _ _ _

/-- Witness: create_omitted_fields_absent at the all-optional-omitted
fixtures. -/
theorem create_omitted_fields_absent_witness :
    (createGuest emptyStorage plainGuestInput).1.phone = none ∧
    (createGuest emptyStorage plainGuestInput).1.joinNewsletter = none ∧
    (createVolunteer emptyStorage plainVolunteerInput).1.timeOut = none := by
  have h := create_omitted_fields_absent emptyStorage plainGuestInput plainVolunteerInput
  exact ⟨h.1 rfl, h.2.1 rfl, h.2.2.2.2.2.2.1 rfl⟩

theorem foldl_push {α β : Type} (f : α → β) (l : List α) (acc : List β) :
    l.foldl (fun a x => a ++ [f x]) acc = acc ++ l.map f := by
  induction l generalizing acc with
  | nil => simp
  | cons x xs ih => simp [ih]

theorem getAllPeople_eq (st : MemStorage) :
    getAllPeople st = (getVolunteers st).map Person.volunteer ++
      (getGuests st).map Person.guest ++ (getStaff st).map Person.staff := by
  unfold getAllPeople
  rw [foldl_push, foldl_push, foldl_push]
  simp [List.append_assoc]

theorem tag_eq_volunteer_iff (p : Person) :
    p.tag = PersonType.volunteer ↔ ∃ v, p = Person.volunteer v := by
  cases p <;> simp [Person.tag]

theorem tag_eq_guest_iff (p : Person) :
    p.tag = PersonType.guest ↔ ∃ g, p = Person.guest g := by
  cases p <;> simp [Person.tag]

theorem tag_eq_staff_iff (p : Person) :
    p.tag = PersonType.staff ↔ ∃ s, p = Person.staff s := by
  cases p <;> simp [Person.tag]

/-- C6: getAllPeople is exactly all volunteer rows, then all guest rows,
then all staff rows, each in store-retrieval order and tagged with its
kind; its length is the sum of the three store sizes, and each element's
(unique) tag is volunteer, guest or staff exactly when the element is a
row of the corresponding store. -/
theorem getAllPeople_shape (st : MemStorage) :
    getAllPeople st = (getVolunteers st).map Person.volunteer ++
      (getGuests st).map Person.guest ++ (getStaff st).map Person.staff ∧
    (getAllPeople st).length =
      (getVolunteers st).length + (getGuests st).length + (getStaff st).length ∧
    ∀ p ∈ getAllPeople st,
      (p.tag = PersonType.volunteer ↔ ∃ v ∈ getVolunteers st, p = Person.volunteer v) ∧
      (p.tag = PersonType.guest ↔ ∃ g ∈ getGuests st, p = Person.guest g) ∧
      (p.tag = PersonType.staff ↔ ∃ s ∈ getStaff st, p = Person.staff s) := by
  refine ⟨getAllPeople_eq st, ?_, ?_⟩
  · rw [getAllPeople_eq st]; simp [Nat.add_assoc]
  · intro p hp
    rw [getAllPeople_eq st] at hp
    have hcases :
        (∃ v ∈ getVolunteers st, p = Person.volunteer v) ∨
        (∃ g ∈ getGuests st, p = Person.guest g) ∨
        (∃ s ∈ getStaff st, p = Person.staff s) := by
      rcases List.mem_append.mp hp with h12 | h3
      · rcases List.mem_append.mp h12 with h1 | h2
        · obtain ⟨v, hv, hEq⟩ := List.mem_map.mp h1
          exact Or.inl ⟨v, hv, hEq.symm⟩
        · obtain ⟨g, hg, hEq⟩ := List.mem_map.mp h2
          exact Or.inr (Or.inl ⟨g, hg, hEq.symm⟩)
      · obtain ⟨s, hsm, hEq⟩ := List.mem_map.mp h3
        exact Or.inr (Or.inr ⟨s, hsm, hEq.symm⟩)
    rcases hcases with ⟨v, hv, rfl⟩ | ⟨g, hg, rfl⟩ | ⟨s, hsm, rfl⟩
    · refine ⟨⟨fun _ => ⟨v, hv, rfl⟩, fun _ => rfl⟩, ?_, ?_⟩
      · constructor
        · intro h; simp [Person.tag] at h
        · rintro ⟨g, _, h⟩; exact absurd h (by simp)
      · constructor
        · intro h; simp [Person.tag] at h
        · rintro ⟨s, _, h⟩; exact absurd h (by simp)
    · refine ⟨?_, ⟨fun _ => ⟨g, hg, rfl⟩, fun _ => rfl⟩, ?_⟩
      · constructor
        · intro h; simp [Person.tag] at h
        · rintro ⟨v, _, h⟩; exact absurd h (by simp)
      · constructor
        · intro h; simp [Person.tag] at h
        · rintro ⟨s, _, h⟩; exact absurd h (by simp)
    · refine ⟨?_, ?_, ⟨fun _ => ⟨s, hsm, rfl⟩, fun _ => rfl⟩⟩
      · constructor
        · intro h; simp [Person.tag] at h
        · rintro ⟨v, _, h⟩; exact absurd h (by simp)
      · constructor
        · intro h; simp [Person.tag] at h
        · rintro ⟨g, _, h⟩; exact absurd h (by simp)

/-- Witness: getAllPeople_shape at the shared-id fixture. -/
theorem getAllPeople_shape_witness :
    (getAllPeople stShared).length =
      (getVolunteers stShared).length + (getGuests stShared).length +
        (getStaff stShared).length :=
  (getAllPeople_shape stShared).2.1

theorem mem_dedupFirstAux {α : Type} [DecidableEq α] (seen l : List α) (a : α) :
    a ∈ dedupFirstAux seen l ↔ a ∈ l ∧ a ∉ seen := by
  induction l generalizing seen with
  | nil => simp [dedupFirstAux]
  | cons x xs ih =>
    by_cases hx : x ∈ seen
    · rw [show dedupFirstAux seen (x :: xs) = dedupFirstAux seen xs from by
        simp [dedupFirstAux, hx]]
      rw [ih]
      simp only [List.mem_cons]
      constructor
      · rintro ⟨h1, h2⟩; exact ⟨Or.inr h1, h2⟩
      · rintro ⟨h1 | h1, h2⟩
        · subst h1; exact absurd hx h2
        · exact ⟨h1, h2⟩
    · rw [show dedupFirstAux seen (x :: xs) = x :: dedupFirstAux (x :: seen) xs from by
        simp [dedupFirstAux, hx]]
      simp only [List.mem_cons, ih]
      constructor
      · rintro (rfl | ⟨h1, h2⟩)
        · exact ⟨Or.inl rfl, hx⟩
        · exact ⟨Or.inr h1, fun hs => h2 (Or.inr hs)⟩
      · rintro ⟨rfl | h1, h2⟩
        · exact Or.inl rfl
        · by_cases hax : a = x
          · exact Or.inl hax
          · exact Or.inr ⟨h1, fun hc => hc.elim hax h2⟩

theorem nodup_dedupFirstAux {α : Type} [DecidableEq α] (seen l : List α) :
    (dedupFirstAux seen l).Nodup := by
  induction l generalizing seen with
  | nil => simp [dedupFirstAux]
  | cons x xs ih =>
    by_cases hx : x ∈ seen
    · rw [show dedupFirstAux seen (x :: xs) = dedupFirstAux seen xs from by
        simp [dedupFirstAux, hx]]
      exact ih seen
    · rw [show dedupFirstAux seen (x :: xs) = x :: dedupFirstAux (x :: seen) xs from by
        simp [dedupFirstAux, hx]]
      rw [List.nodup_cons]
      refine ⟨?_, ih _⟩
      rw [mem_dedupFirstAux]
      rintro ⟨_, h2⟩
      exact h2 (List.mem_cons_self x seen)

/-- C7: getUniqueVolunteerNames returns exactly the distinct name values
of the volunteer rows, each exactly once, in ascending lexicographic
(code-point) order; getUniqueStaffNames satisfies the same contract over
staff rows; and volunteer rows named Bob, Ann, Bob give exactly
["Ann", "Bob"]. -/
theorem uniqueNames_distinct_sorted (st : MemStorage) :
    ((getUniqueVolunteerNames st).Sorted strLe ∧
      (getUniqueVolunteerNames st).Nodup ∧
      ∀ a, a ∈ getUniqueVolunteerNames st ↔
        a ∈ (getVolunteers st).map Volunteer.name) ∧
    ((getUniqueStaffNames st).Sorted strLe ∧
      (getUniqueStaffNames st).Nodup ∧
      ∀ a, a ∈ getUniqueStaffNames st ↔ a ∈ (getStaff st).map Staff.name) ∧
    getUniqueVolunteerNames stBobAnnBob = ["Ann", "Bob"] := by
  have hgen : ∀ names : List String,
      (List.insertionSort strLe (dedupFirst names)).Sorted strLe ∧
      (List.insertionSort strLe (dedupFirst names)).Nodup ∧
      ∀ a, a ∈ List.insertionSort strLe (dedupFirst names) ↔ a ∈ names := by
    intro names
    refine ⟨List.sorted_insertionSort strLe _, ?_, ?_⟩
    · rw [(List.perm_insertionSort strLe _).nodup_iff]
      exact nodup_dedupFirstAux [] names
    · intro a
      rw [(List.perm_insertionSort strLe _).mem_iff]
      rw [show dedupFirst names = dedupFirstAux [] names from rfl, mem_dedupFirstAux]
      simp
  exact ⟨hgen _, hgen _, by decide⟩

/-- Witness: uniqueNames_distinct_sorted at the Bob, Ann, Bob
fixture. -/
theorem uniqueNames_distinct_sorted_witness :
    getUniqueVolunteerNames stBobAnnBob = ["Ann", "Bob"] :=
  (uniqueNames_distinct_sorted stBobAnnBob).2.2

theorem counterOf_applyOp (k : PersonType) (st : MemStorage) (op : Op) :
    counterOf k st ≤ counterOf k (applyOp st op) := by
  cases op with
  | createVolunteer i => cases k <;> simp [applyOp, createVolunteer, counterOf]
  | createGuest i => cases k <;> simp [applyOp, createGuest, counterOf]
  | createStaff i => cases k <;> simp [applyOp, createStaff, counterOf]
  | deletePerson t id => cases t <;> cases k <;> simp [applyOp, deletePerson, counterOf]

theorem assignedIds_cons (k : PersonType) (st : MemStorage) (op : Op) (ops : List Op) :
    assignedIds k st (op :: ops) = assignedIds k (applyOp st op) ops ∨
    (assignedIds k st (op :: ops) =
        counterOf k st :: assignedIds k (applyOp st op) ops ∧
      counterOf k (applyOp st op) = counterOf k st + 1) := by
  cases k with
  | volunteer =>
    cases op with
    | createVolunteer i => exact Or.inr ⟨rfl, rfl⟩
    | createGuest i => exact Or.inl rfl
    | createStaff i => exact Or.inl rfl
    | deletePerson t id => exact Or.inl rfl
  | guest =>
    cases op with
    | createVolunteer i => exact Or.inl rfl
    | createGuest i => exact Or.inr ⟨rfl, rfl⟩
    | createStaff i => exact Or.inl rfl
    | deletePerson t id => exact Or.inl rfl
  | staff =>
    cases op with
    | createVolunteer i => exact Or.inl rfl
    | createGuest i => exact Or.inl rfl
    | createStaff i => exact Or.inr ⟨rfl, rfl⟩
    | deletePerson t id => exact Or.inl rfl

theorem assignedIds_lb (k : PersonType) (ops : List Op) :
    ∀ st, ∀ x ∈ assignedIds k st ops, counterOf k st ≤ x := by
  induction ops with
  | nil => intro st x hx; exact absurd hx (List.not_mem_nil x)
  | cons op ops ih =>
    intro st x hx
    rcases assignedIds_cons k st op ops with h | ⟨h, hc⟩
    · rw [h] at hx
      exact le_trans (counterOf_applyOp k st op) (ih _ x hx)
    · rw [h] at hx
      rcases List.mem_cons.mp hx with rfl | hmem
      · exact le_refl _
      · have h2 := ih _ x hmem
        rw [hc] at h2
        omega

theorem assignedIds_sorted (k : PersonType) (ops : List Op) (st : MemStorage) :
    (assignedIds k st ops).Sorted (· < ·) := by
  induction ops generalizing st with
  | nil => exact List.sorted_nil
  | cons op ops ih =>
    rcases assignedIds_cons k st op ops with h | ⟨h, hc⟩
    · rw [h]; exact ih _
    · rw [h, List.sorted_cons]
      refine ⟨?_, ih _⟩
      intro b hb
      have h2 := assignedIds_lb k ops _ b hb
      rw [hc] at h2
      omega

/-- C8: along every sequence of create and delete operations starting
from the initial storage, the ids assigned by the creations of each kind
are strictly increasing in creation order, hence pairwise distinct; and
since no id occurs twice in a kind's assignment sequence, an id assigned
once and then freed by deletePerson is never assigned again by a later
creation of that kind. -/
theorem assignedIds_strictly_increasing (ops : List Op) (k : PersonType) :
    (assignedIds k emptyStorage ops).Sorted (· < ·) ∧
    (assignedIds k emptyStorage ops).Nodup := by
  have h := assignedIds_sorted k ops emptyStorage
  exact ⟨h, List.Pairwise.imp (fun hlt => Nat.ne_of_lt hlt) h⟩

/-- C9: creating a volunteer and immediately listing by the created
record's exact area returns a sequence containing the created record,
and for every queried category string each returned record's area equals
that string exactly (exact-match filtering, so records of other areas
are excluded). -/
theorem createVolunteer_category_roundtrip (st : MemStorage) (i : InsertVolunteer) :
    (createVolunteer st i).1 ∈
      getVolunteersByCategory (createVolunteer st i).2 (createVolunteer st i).1.area ∧
    ∀ category, ∀ w ∈ getVolunteersByCategory (createVolunteer st i).2 category,
      w.area = category := by
  constructor
  · unfold getVolunteersByCategory
    apply List.mem_filter.mpr
    refine ⟨?_, by simp⟩
    unfold getVolunteers
    exact List.mem_map.mpr
      ⟨((createVolunteer st i).1.id, (createVolunteer st i).1), mem_mapSet _ _ _, rfl⟩
  · intro category w hw
    have h := (List.mem_filter.mp hw).2
    simpa using h

/-- Witness: createVolunteer_category_roundtrip at the empty storage and
the timeOut-omitted input. -/
theorem createVolunteer_category_roundtrip_witness :
    (createVolunteer emptyStorage plainVolunteerInput).1 ∈
      getVolunteersByCategory (createVolunteer emptyStorage plainVolunteerInput).2
        (createVolunteer emptyStorage plainVolunteerInput).1.area :=
  (createVolunteer_category_roundtrip emptyStorage plainVolunteerInput).1

/-- C10: supplying a falsy value for an optional guest field — explicit
joinNewsletter = false, or an empty string for phone, brideName,
groomName or tourGuide — produces exactly the same creation result
(returned record and stored state) as omitting the field: the stored
value is null, and an explicit joinNewsletter = false is not persisted
as false. -/
theorem createGuest_falsy_stored_null (st : MemStorage) (i : InsertGuest) :
    createGuest st { i with joinNewsletter := some false } =
      createGuest st { i with joinNewsletter := none } ∧
    createGuest st { i with phone := some "" } =
      createGuest st { i with phone := none } ∧
    createGuest st { i with brideName := some "" } =
      createGuest st { i with brideName := none } ∧
    createGuest st { i with groomName := some "" } =
      createGuest st { i with groomName := none } ∧
    createGuest st { i with tourGuide := some "" } =
      createGuest st { i with tourGuide := none } ∧
    (createGuest st { i with joinNewsletter := some false }).1.joinNewsletter = none ∧
    (createGuest st { i with phone := some "" }).1.phone = none :=
  ⟨rfl, rfl, rfl, rfl, rfl, rfl, rfl⟩

end NorthStar
